import Mathlib

/-!
Verification of the gpuhunt query/merge engine.

This file shallowly embeds the parts of the repository that the claims are
about:

* `src/gpuhunt/_internal/catalog.py` — `Catalog` (query, load, reload policy,
  provider dispatch, `heapq.merge`-based k-way merge);
* `src/gpuhunt/providers/crusoe.py`, `coreweave.py`, `hyperstack.py` — the
  `get` entry points of the live providers, at the level of the already
  HTML-extracted rows (the `requests`/BeautifulSoup layer is represented by
  explicit fetch/extraction outcomes).

Python floats used for prices are modelled as rationals (only order
comparisons on them occur in the modelled code).  `time.monotonic()` is
modelled as a natural-number clock.  Machinery that lives in files of the
repository that are not available (`_internal/models.py`,
`_internal/constraints.py`, `_internal/utils.py`) is modelled from the spec
and marked as such in its doc comment.
-/

/-- The `AcceleratorVendor` enum from the data model (spec §3). -/
inductive AcceleratorVendor where
  | nvidia
  | amd
  | google
  | intel
deriving DecidableEq, Repr

/-- Model of `RawCatalogItem`: an offer as produced by a source, without the source
identifier (spec §3; `models.py` is not under `src/`, the field list follows
the spec's Offer model and the `catalog.py` / provider call sites). -/
structure RawCatalogItem where
  instance_name : String
  location : String
  price : ℚ
  cpu : Option Nat
  memory : Option ℚ
  gpu_count : Nat
  gpu_name : Option String
  gpu_memory : Option ℚ
  gpu_vendor : Option AcceleratorVendor
  spot : Bool
  disk_size : Option Nat
  compute_capability : Option (Nat × Nat)
deriving DecidableEq, Repr

/-- Model of `CatalogItem`: a `RawCatalogItem` tagged with its provider, mirroring
`CatalogItem(provider=provider_name, **dataclasses.asdict(i))` in
`catalog.py`. -/
structure CatalogItem where
  provider : String
  instance_name : String
  location : String
  price : ℚ
  cpu : Option Nat
  memory : Option ℚ
  gpu_count : Nat
  gpu_name : Option String
  gpu_memory : Option ℚ
  gpu_vendor : Option AcceleratorVendor
  spot : Bool
  disk_size : Option Nat
  compute_capability : Option (Nat × Nat)
deriving DecidableEq, Repr

/-- Tagging a raw offer with the provider name, as done by
`Catalog._get_offline_provider_items` (`CatalogItem.from_dict(row,
provider=provider_name)`) and `Catalog._get_online_provider_items`
(`CatalogItem(provider=provider_name, **dataclasses.asdict(i))`). -/
def CatalogItem.ofRaw (provider : String) (r : RawCatalogItem) : CatalogItem :=
  { provider := provider
    instance_name := r.instance_name
    location := r.location
    price := r.price
    cpu := r.cpu
    memory := r.memory
    gpu_count := r.gpu_count
    gpu_name := r.gpu_name
    gpu_memory := r.gpu_memory
    gpu_vendor := r.gpu_vendor
    spot := r.spot
    disk_size := r.disk_size
    compute_capability := r.compute_capability }

section KWayMerge

variable {α : Type}

/-- Item `a` precedes `b` in the price order used throughout: non-decreasing by
the `key` projection (the code always passes `key=lambda i: i.price`). -/
def keyLE (key : α → ℚ) (a b : α) : Prop := key a ≤ key b

instance (key : α → ℚ) : DecidableRel (keyLE key) := fun a b =>
  inferInstanceAs (Decidable (key a ≤ key b))

/-- One step of `heapq.merge(*lists, key=...)`: pop the element with the
smallest key among the heads of the lists; on key ties the leftmost list
wins (heapq orders its entries by `(key(value), iterable_index)`).  Returns
the popped element together with the lists with that element removed, or
`none` when every list is exhausted. -/
def selectMin (key : α → ℚ) : List (List α) → Option (α × List (List α))
  | [] => none
  | l :: rest =>
    match l with
    | [] =>
      match selectMin key rest with
      | none => none
      | some (b, rest') => some (b, [] :: rest')
    | a :: as =>
      match selectMin key rest with
      | none => some (a, as :: rest)
      | some (b, rest') =>
        if key a ≤ key b then some (a, as :: rest)
        else some (b, (a :: as) :: rest')

/-- Fuel-driven unfolding of the k-way merge. -/
def heapqMergeGo (key : α → ℚ) : Nat → List (List α) → List α
  | 0, _ => []
  | fuel + 1, ls =>
    match selectMin key ls with
    | none => []
    | some (x, ls') => x :: heapqMergeGo key fuel ls'

/-- Model of `list(heapq.merge(*lists, key=lambda i: i.price))` from `Catalog.query`
(line 149 of `catalog.py`): repeatedly pop the smallest-key head, ties
resolved in favour of the earlier input list.  The total length of the
inputs is enough fuel to exhaust them. -/
def heapqMerge (key : α → ℚ) (ls : List (List α)) : List α :=
  heapqMergeGo key (ls.map List.length).sum ls

end KWayMerge

section PySorted

variable {α : Type}

/-- Insert `x` after every already-placed element with key `≤ key x`
(auxiliary for `pySorted`). -/
def pyInsert (key : α → ℚ) (x : α) : List α → List α
  | [] => [x]
  | y :: ys => if key y ≤ key x then y :: pyInsert key x ys else x :: y :: ys

/-- Python's `sorted(offers, key=lambda x: x.price)`: a stable ascending
sort by key (equal-key elements keep their input order). -/
def pySorted (key : α → ℚ) (l : List α) : List α :=
  l.foldl (fun acc x => pyInsert key x acc) []

end PySorted

/-- Exceptions raised by the `requests` library (`requests.RequestException`
subclasses): the transient network-I/O failures of a live fetch. -/
inductive ReqErr where
  | timeout
  | connectionError
  | httpError
deriving DecidableEq, Repr

/-- Other Python exceptions appearing in the modelled code paths. -/
inductive PyExn where
  | attributeError
  | valueError
  | indexError
  | typeError
  | urlError
  | otherError
deriving DecidableEq, Repr

/-- Model of `CrusoeProvider.get` (`providers/crusoe.py` lines 70-166).  The
`requests.get` + `BeautifulSoup` page extraction and the offer-building
loop over the pricing rows are represented by their outcomes:

* `fetched` — outcome of `requests.get(self.BASE_URL)` /
  `raise_for_status()`: `.error` is a raised `requests.RequestException`;
* `parsed` — outcome of building the `offers` list from the fetched page
  (section lookup, row loop, `_parse_gpu_memory`, `_parse_price`):
  `.error` is any exception raised while parsing, `.ok` the built list
  (the no-gpu-section path is `.ok []`, mirroring the early `return []`).

The body then returns `sorted(offers, key=lambda x: x.price)`; the
`except requests.RequestException` and `except Exception` handlers both
return `[]`.  The `Except PyExn` result type records whether an exception
escapes the call: `.ok` means a list is returned to the caller. -/
def crusoeGet (fetched : Except ReqErr Unit)
    (parsed : Except PyExn (List RawCatalogItem)) :
    Except PyExn (List RawCatalogItem) :=
  match fetched with
  | .error _ => .ok []
  | .ok _ =>
    match parsed with
    | .error _ => .ok []
    | .ok offers => .ok (pySorted (fun x => x.price) offers)

/-- A row of the CoreWeave pricing table as extracted from the HTML
(`_parse_gpu_offerings`, `providers/coreweave.py` lines 54-127), with each
extraction/parse sub-step represented by its outcome: `none` stands for a
missing element or a failed `re.search`/`float`/`int` conversion, i.e. the
`continue` paths (either explicit or via the per-row
`except (AttributeError, ValueError, IndexError)` handler). -/
structure CwRow where
  gpuName : Option String
  memorySize : Option ℚ
  cpuCores : Option Nat
  ramSize : Option ℚ
  priceText : String
  priceVal : Option ℚ
deriving DecidableEq, Repr

/-- ASCII lower-casing of one character (`str.lower()` on the ASCII
provider/GPU names appearing in this code base). -/
def lowerChar (c : Char) : Char :=
  if 'A' ≤ c ∧ c ≤ 'Z' then Char.ofNat (c.toNat + 32) else c

/-- Model of `str.lower()` on ASCII names, by structural recursion so that concrete
evaluation reduces in the kernel. -/
def pyLower (s : String) : String := String.mk (s.data.map lowerChar)

/-- Split a character list at spaces (helper for `splitWords`). -/
def splitOnSpaceAux : List Char → List Char → List String
  | [], acc => [String.mk acc.reverse]
  | c :: cs, acc =>
    if c = ' ' then String.mk acc.reverse :: splitOnSpaceAux cs []
    else splitOnSpaceAux cs (c :: acc)

/-- Boolean membership of a string in a list (Python's `in`). -/
def strMem (x : String) : List String → Bool
  | [] => false
  | y :: ys => (x == y) || strMem x ys

/-- The space-separated words of a string (Python `str.split(' ')`). -/
def splitWords (s : String) : List String := splitOnSpaceAux s.data []

/-- Model of `gpu_name.split()[0]` — first whitespace-separated word. -/
def firstWord (s : String) : String := (splitWords s).headD s

/-- Model of `gpu_name.split()[1]` — second whitespace-separated word, `none` when
absent (an `IndexError` in the source). -/
def secondWord (s : String) : Option String := (splitWords s).get? 1

/-- One iteration of the CoreWeave row loop: `none` is a skipped row
(`continue`), `some` an appended `RawCatalogItem` with the constants from
the source (`location="US"`, `gpu_count=1`, NVIDIA, on-demand). -/
def cwParseRow (r : CwRow) : Option RawCatalogItem :=
  match r.gpuName with
  | none => none
  | some name =>
    match r.memorySize, r.cpuCores, r.ramSize with
    | some mem, some cpu, some ram =>
      if r.priceText = "Contact Us" then none
      else
        match r.priceVal with
        | none => none
        | some price =>
          some { instance_name := name
                 location := "US"
                 price := price
                 cpu := some cpu
                 memory := some ram
                 gpu_count := 1
                 gpu_name := some (firstWord name)
                 gpu_memory := some mem
                 gpu_vendor := some .nvidia
                 spot := false
                 disk_size := none
                 compute_capability := none }
    | _, _, _ => none

/-- Model of `CoreWeaveProvider._parse_gpu_offerings`: rows are processed in page
order and appended in page order; `none` rows are skipped.  No sort is
applied.  The missing-`table-body` early return is the `none` page. -/
def coreweaveParseGpuOfferings (page : Option (List CwRow)) : List RawCatalogItem :=
  match page with
  | none => []
  | some rows => rows.filterMap cwParseRow

/-- Model of `CoreWeaveProvider.get` (`providers/coreweave.py` lines 30-45):
`_fetch_page` outcome (`requests.RequestException` → `return []`), then
`_parse_gpu_offerings` on the fetched page. -/
def coreweaveGet (fetched : Except ReqErr (Option (List CwRow))) :
    List RawCatalogItem :=
  match fetched with
  | .error _ => []
  | .ok page => coreweaveParseGpuOfferings page

/-- A row of the Hyperstack pricing table (`_parse_gpu_offerings`,
`providers/hyperstack.py` lines 54-113), extraction outcomes as in
`CwRow`; `cellCount` is `len(cells)`. -/
structure HsRow where
  cellCount : Nat
  gpuName : String
  vram : Option ℚ
  maxCpus : Option Nat
  maxRam : Option ℚ
  priceVal : Option ℚ
deriving DecidableEq, Repr

/-- One iteration of the Hyperstack row loop (`continue` on short rows,
failed conversions, failed price regex, or `gpu_name.split()[1]`
`IndexError`). -/
def hsParseRow (r : HsRow) : Option RawCatalogItem :=
  if r.cellCount < 5 then none
  else
    match r.vram, r.maxCpus, r.maxRam with
    | some vram, some cpus, some ram =>
      match r.priceVal with
      | none => none
      | some price =>
        match secondWord r.gpuName with
        | none => none
        | some model =>
          some { instance_name := r.gpuName
                 location := "EU"
                 price := price
                 cpu := some cpus
                 memory := some ram
                 gpu_count := 1
                 gpu_name := some model
                 gpu_memory := some vram
                 gpu_vendor := some .nvidia
                 spot := false
                 disk_size := none
                 compute_capability := none }
    | _, _, _ => none

/-- Outcome of the pricing-table lookup in
`HyperstackProvider._parse_gpu_offerings` (`providers/hyperstack.py` lines
60-66): the page has no `table.sort-test-jquery` element (the early
`return items`); the table exists but `price_table.find('tbody')` returns
`None` (Python's `html.parser` does not insert an implied `tbody`), so the
chained `.find_all('tr')` raises `AttributeError`; or a `tbody` is found
with its rows. -/
inductive HsPage where
  | noTable
  | tableWithoutTbody
  | tbody (rows : List HsRow)
deriving DecidableEq, Repr

/-- Model of `HyperstackProvider._parse_gpu_offerings`: page-order
traversal, no sort; the missing-table early return yields `[]`, and the
table-without-`tbody` page raises an `AttributeError` out of the method
(line 66 sits outside the per-row `try`). -/
def hyperstackParseGpuOfferings (page : HsPage) :
    Except PyExn (List RawCatalogItem) :=
  match page with
  | .noTable => .ok []
  | .tableWithoutTbody => .error .attributeError
  | .tbody rows => .ok (rows.filterMap hsParseRow)

/-- Model of `HyperstackProvider.get` (`providers/hyperstack.py` lines
30-45).  Its `try` only catches `requests.RequestException`, so the
`AttributeError` raised by `_parse_gpu_offerings` on a `tbody`-less page
propagates to the caller (the `.error` result). -/
def hyperstackGet (fetched : Except ReqErr HsPage) :
    Except PyExn (List RawCatalogItem) :=
  match fetched with
  | .error _ => .ok []
  | .ok page => hyperstackParseGpuOfferings page

/-- The constraint set built by `Catalog.query` (`QueryFilter(...)`,
`catalog.py` lines 86-107).  `models.py` is not under `src/`; the fields
follow the keyword signature of `Catalog.query` exactly (the `str` →
one-element-list coercions for `provider`/`gpu_name` and
`parse_compute_capability` string parsing happen before this value is
formed, so list/pair-typed fields are used directly). -/
structure QueryFilter where
  provider : Option (List String)
  min_cpu : Option Nat
  max_cpu : Option Nat
  min_memory : Option ℚ
  max_memory : Option ℚ
  min_gpu_count : Option Nat
  max_gpu_count : Option Nat
  gpu_vendor : Option AcceleratorVendor
  gpu_name : Option (List String)
  min_gpu_memory : Option ℚ
  max_gpu_memory : Option ℚ
  min_total_gpu_memory : Option ℚ
  max_total_gpu_memory : Option ℚ
  min_disk_size : Option Nat
  max_disk_size : Option Nat
  min_price : Option ℚ
  max_price : Option ℚ
  min_compute_capability : Option (Nat × Nat)
  max_compute_capability : Option (Nat × Nat)
  spot : Option Bool
deriving DecidableEq, Repr

/-- The all-unset constraint set (every keyword argument at its `None`
default). -/
def emptyFilter : QueryFilter :=
  { provider := none
    min_cpu := none
    max_cpu := none
    min_memory := none
    max_memory := none
    min_gpu_count := none
    max_gpu_count := none
    gpu_vendor := none
    gpu_name := none
    min_gpu_memory := none
    max_gpu_memory := none
    min_total_gpu_memory := none
    max_total_gpu_memory := none
    min_disk_size := none
    max_disk_size := none
    min_price := none
    max_price := none
    min_compute_capability := none
    max_compute_capability := none
    spot := none }

/-- Compute-capability order: `(major, minor)` pairs compared
lexicographically (spec §3). -/
def ccLeB (a b : Nat × Nat) : Bool :=
  decide (a.1 < b.1) || (decide (a.1 = b.1) && decide (a.2 ≤ b.2))

/-- An optional numeric bound pair is well-formed when, if both ends are
set, min ≤ max. -/
def natPairOk (lo hi : Option Nat) : Bool :=
  match lo, hi with
  | some l, some h => decide (l ≤ h)
  | _, _ => true

def ratPairOk (lo hi : Option ℚ) : Bool :=
  match lo, hi with
  | some l, some h => decide (l ≤ h)
  | _, _ => true

def ccPairOk (lo hi : Option (Nat × Nat)) : Bool :=
  match lo, hi with
  | some l, some h => ccLeB l h
  | _, _ => true

/-- Modelled from the spec: the bound-pair validation performed when the
constraint set is built (`QueryFilter` lives in `_internal/models.py`,
which is not under `src/`).  Spec §3/§7/§8: for every numeric field, a set
lower bound must not exceed its set upper bound; a violation is a
`ValidationError` raised to the caller, not silently clamped. -/
def validBounds (qf : QueryFilter) : Bool :=
  natPairOk qf.min_cpu qf.max_cpu &&
  ratPairOk qf.min_memory qf.max_memory &&
  natPairOk qf.min_gpu_count qf.max_gpu_count &&
  ratPairOk qf.min_gpu_memory qf.max_gpu_memory &&
  ratPairOk qf.min_total_gpu_memory qf.max_total_gpu_memory &&
  natPairOk qf.min_disk_size qf.max_disk_size &&
  ratPairOk qf.min_price qf.max_price &&
  ccPairOk qf.min_compute_capability qf.max_compute_capability

inductive ValidationError where
  | invalidBounds
deriving DecidableEq, Repr

/-- Modelled from the spec: constructing the query's `QueryFilter`
(`catalog.py` line 86) validates the bound pairs and raises a
`ValidationError` on a min > max pair, before any source is touched. -/
def mkQueryFilter (qf : QueryFilter) : Except ValidationError QueryFilter :=
  if validBounds qf then .ok qf else .error .invalidBounds

/-- Lower-bound check against an optional offer value: an unset bound is
non-restrictive; a set bound fails an offer lacking the value. -/
def natGeMin (lo : Option Nat) (v : Option Nat) : Bool :=
  match lo, v with
  | none, _ => true
  | some _, none => false
  | some l, some x => decide (l ≤ x)

def natLeMax (hi : Option Nat) (v : Option Nat) : Bool :=
  match hi, v with
  | none, _ => true
  | some _, none => false
  | some h, some x => decide (x ≤ h)

def ratGeMin (lo : Option ℚ) (v : Option ℚ) : Bool :=
  match lo, v with
  | none, _ => true
  | some _, none => false
  | some l, some x => decide (l ≤ x)

def ratLeMax (hi : Option ℚ) (v : Option ℚ) : Bool :=
  match hi, v with
  | none, _ => true
  | some _, none => false
  | some h, some x => decide (x ≤ h)

def ccGeMin (lo : Option (Nat × Nat)) (v : Option (Nat × Nat)) : Bool :=
  match lo, v with
  | none, _ => true
  | some _, none => false
  | some l, some x => ccLeB l x

def ccLeMax (hi : Option (Nat × Nat)) (v : Option (Nat × Nat)) : Bool :=
  match hi, v with
  | none, _ => true
  | some _, none => false
  | some h, some x => ccLeB x h

/-- Total accelerator memory `accelerator_count × accelerator_memory`, compared against its own
min/max independently of the per-unit bound (spec §4.2). -/
def totalGpuMemory (item : CatalogItem) : Option ℚ :=
  item.gpu_memory.map (fun m => (item.gpu_count : ℚ) * m)

/-- Modelled from the spec: `constraints.matches(item, query_filter)`
(`_internal/constraints.py` is not under `src/`).  Spec §4.2/§3: a pure,
total predicate; unset constraints are non-restrictive; numeric bounds are
inclusive on both ends; total accelerator memory is computed on the fly;
compute-capability bounds compare `(major, minor)` lexicographically and an
offer lacking the value fails any query that sets such a bound; the
source-identifier and accelerator-name filters are case-insensitive
membership tests; vendor and spot are equality tests. -/
def constraintsMatches (item : CatalogItem) (qf : QueryFilter) : Bool :=
  (match qf.provider with
   | none => true
   | some ps => strMem (pyLower item.provider) (ps.map pyLower)) &&
  natGeMin qf.min_cpu item.cpu && natLeMax qf.max_cpu item.cpu &&
  ratGeMin qf.min_memory item.memory && ratLeMax qf.max_memory item.memory &&
  natGeMin qf.min_gpu_count (some item.gpu_count) &&
  natLeMax qf.max_gpu_count (some item.gpu_count) &&
  (match qf.gpu_vendor with
   | none => true
   | some v => decide (item.gpu_vendor = some v)) &&
  (match qf.gpu_name with
   | none => true
   | some names =>
     match item.gpu_name with
     | none => false
     | some n => strMem (pyLower n) (names.map pyLower)) &&
  ratGeMin qf.min_gpu_memory item.gpu_memory &&
  ratLeMax qf.max_gpu_memory item.gpu_memory &&
  ratGeMin qf.min_total_gpu_memory (totalGpuMemory item) &&
  ratLeMax qf.max_total_gpu_memory (totalGpuMemory item) &&
  natGeMin qf.min_disk_size item.disk_size &&
  natLeMax qf.max_disk_size item.disk_size &&
  ratGeMin qf.min_price (some item.price) &&
  ratLeMax qf.max_price (some item.price) &&
  ccGeMin qf.min_compute_capability item.compute_capability &&
  ccLeMax qf.max_compute_capability item.compute_capability &&
  (match qf.spot with
   | none => true
   | some s => decide (item.spot = s))

/-- The `OFFLINE_PROVIDERS` list (`catalog.py` line 22). -/
def OFFLINE_PROVIDERS : List String :=
  ["aws", "azure", "datacrunch", "gcp", "lambdalabs", "oci", "runpod"]

/-- The `ONLINE_PROVIDERS` list (`catalog.py` lines 24-32). -/
def ONLINE_PROVIDERS : List String :=
  ["cudo", "tensordock", "vastai", "oracle", "coreweave", "crusoe", "hyperstack"]

/-- The constant `RELOAD_INTERVAL = 15 * 60` seconds (`catalog.py` line 33). -/
def RELOAD_INTERVAL : Nat := 15 * 60

/-- A registered live source (`AbstractProvider`; `providers/__init__.py`
is not under `src/`, the interface is taken from its uses in `catalog.py`:
a `NAME` and a `get(query_filter, balance_resources)` call).  `get` is the
provider's Python method: `.error` models an exception it raises to the
caller, `.ok` the returned list. -/
structure AbstractProvider where
  NAME : String
  get : QueryFilter → Bool → Except PyExn (List RawCatalogItem)

/-- The downloaded archive, keyed by provider name: `<source>.csv` tables
of the snapshot, with CSV rows already parsed into items
(`CatalogItem.from_dict` row parsing lives in `models.py`, outside `src/`,
and no claim depends on it). -/
def Snapshot : Type := List (String × List RawCatalogItem)

instance : DecidableEq Snapshot :=
  inferInstanceAs (DecidableEq (List (String × List RawCatalogItem)))

/-- The mutable fields of a `Catalog` (`Catalog.__init__`,
`catalog.py` lines 37-48). -/
structure CatalogState where
  catalog : Option Snapshot
  loadedAt : Option Nat
  providers : List AbstractProvider
  balanceResources : Bool
  autoReload : Bool
  onlineOnly : Bool

/-- The initial state of `Catalog(balance_resources=True, auto_reload=True)`. -/
def initState : CatalogState :=
  { catalog := none
    loadedAt := none
    providers := []
    balanceResources := true
    autoReload := true
    onlineOnly := false }

/-- Outcome of the archive download inside `Catalog.load`:
`openFail` — `urllib.request.urlopen` raises before the `with` body runs;
`readFail` — the connection opens but `f.read()` fails mid-download;
`ok` — the full archive is read. -/
inductive DownloadOutcome where
  | openFail
  | readFail
  | ok (data : Snapshot)

/-- Model of `Catalog.load` (`catalog.py` lines 152-164), with the network
represented by `dl`.  Inside the `with urlopen(...)` block the source first
assigns `self.loaded_at = time.monotonic()` and only then
`self.catalog = io.BytesIO(f.read())`; so a failure of the body read
leaves `loaded_at` already updated while `catalog` keeps its old value.
The returned `Option PyExn` is the exception escaping the call, if any
(the version fetch for an omitted `version` argument failing behaves like
`openFail`: nothing assigned, exception raised). -/
def load (st : CatalogState) (now : Nat) (dl : DownloadOutcome) :
    CatalogState × Option PyExn :=
  match dl with
  | .openFail => (st, some .urlError)
  | .readFail => ({ st with loadedAt := some now }, some .urlError)
  | .ok data => ({ st with loadedAt := some now, catalog := some data }, none)

/-- The external circumstances of one `Catalog.query` call: the monotonic
clock and the network outcomes of the reload attempt (`get_latest_version`
and the archive download). -/
structure QueryEnv where
  now : Nat
  versionOk : Bool
  download : DownloadOutcome

/-- Whether the reload condition at `Catalog.query` entry holds
(`catalog.py` lines 76-78): `not self._online_only and self.auto_reload
and (self.loaded_at is None or time.monotonic() - self.loaded_at >
RELOAD_INTERVAL)`. -/
def reloadDue (st : CatalogState) (now : Nat) : Bool :=
  !st.onlineOnly && st.autoReload &&
    (match st.loadedAt with
     | none => true
     | some t => decide (RELOAD_INTERVAL < now - t))

/-- The reload block at `Catalog.query` entry (`catalog.py` lines 76-84):
when due, `get_latest_version()` then `load()`; any raised network error is
caught and flips `_online_only` to `True` (state changes already made by
`load` before the failure are kept).  Returns the state after the block and
whether a reload was attempted. -/
def reloadBlock (st : CatalogState) (env : QueryEnv) : CatalogState × Bool :=
  if reloadDue st env.now then
    if env.versionOk then
      match load st env.now env.download with
      | (st', none) => (st', true)
      | (st', some _) => ({ st' with onlineOnly := true }, true)
    else ({ st with onlineOnly := true }, true)
  else (st, false)

/-- Exceptions a dispatched source task can end with (re-raised by
`f.result()` in `Catalog.query`). -/
inductive TaskErr where
  | providerNotLoaded (name : String)
  | providerRaised (e : PyExn)
  | missingCsv (name : String)
deriving DecidableEq, Repr

/-- Tag each raw offer with its provider name and keep the ones matching
the filter — the item-collection step shared by
`_get_online_provider_items` and `_get_offline_provider_items`. -/
def matchedItems (name : String) (raws : List RawCatalogItem)
    (qf : QueryFilter) : List CatalogItem :=
  (raws.map (CatalogItem.ofRaw name)).filter (fun i => constraintsMatches i qf)

/-- The loop body of `Catalog._get_online_provider_items` (`catalog.py`
lines 204-215): walk `self.providers` in registration order; for each one
whose `NAME` equals the requested name, call `get` (a raised exception
propagates out of the task), tag each returned raw offer with the provider
name and keep it when it matches the filter.  Returns the `found` flag and
the accumulated items. -/
def onlineItemsLoop (name : String) (qf : QueryFilter) (balance : Bool) :
    List AbstractProvider → Except TaskErr (Bool × List CatalogItem)
  | [] => .ok (false, [])
  | p :: ps =>
    if p.NAME = name then
      match p.get qf balance with
      | .error e => .error (.providerRaised e)
      | .ok raws =>
        match onlineItemsLoop name qf balance ps with
        | .error e => .error e
        | .ok (_, items) =>
          .ok (true, matchedItems name raws qf ++ items)
    else onlineItemsLoop name qf balance ps

/-- Model of `Catalog._get_online_provider_items` (`catalog.py` lines 199-218):
after the loop, `found == False` raises
`ValueError(f"Provider is not loaded: {provider_name}")`. -/
def getOnlineProviderItems (providers : List AbstractProvider) (name : String)
    (qf : QueryFilter) (balance : Bool) : Except TaskErr (List CatalogItem) :=
  match onlineItemsLoop name qf balance providers with
  | .error e => .error e
  | .ok (false, _) => .error (.providerNotLoaded name)
  | .ok (true, items) => .ok items

/-- Model of `Catalog._get_offline_provider_items` (`catalog.py` lines 176-197):
no snapshot → warn and return `[]`; otherwise open `<name>.csv` inside the
archive (a missing member is a raised `KeyError`), parse its rows, tag with
the provider name and filter. -/
def getOfflineProviderItems (catalog : Option Snapshot) (name : String)
    (qf : QueryFilter) : Except TaskErr (List CatalogItem) :=
  match catalog with
  | none => .ok []
  | some snap =>
    match snap.lookup name with
    | none => .error (.missingCsv name)
    | some rows => .ok (matchedItems name rows qf)

/-- Errors `Catalog.query` can raise. -/
inductive QueryError where
  | validation (e : ValidationError)
  | unknownProvider (name : String)
  | sourceTask (e : TaskErr)
deriving DecidableEq, Repr

/-- A task submitted to the `ThreadPoolExecutor` in `Catalog.query`:
either `_get_online_provider_items` or `_get_offline_provider_items` for a
provider name. -/
inductive SourceTask where
  | online (name : String)
  | offline (name : String)
deriving DecidableEq, Repr

/-- Provider-name validation and defaulting (`catalog.py` lines 109-118):
with an explicit list, every name must lower-case into
`OFFLINE_PROVIDERS + ONLINE_PROVIDERS` or `ValueError(f"Unknown provider:
{p}")` is raised; with no list, the default is all offline providers plus
the `NAME`s of registered providers that are online providers
(`list(set(...))` — modelled as order-preserving deduplication). -/
def resolveProviders (st : CatalogState) (qf : QueryFilter) :
    Except String (List String) :=
  match qf.provider with
  | some ps =>
    let valid := (OFFLINE_PROVIDERS ++ ONLINE_PROVIDERS).map pyLower
    match ps.find? (fun p => !strMem (pyLower p) valid) with
    | some p => .error p
    | none => .ok ps
  | none =>
    .ok (OFFLINE_PROVIDERS ++
      (((st.providers.map (fun p => p.NAME)).filter
        (fun n => strMem n ONLINE_PROVIDERS)).dedup))

/-- The online-provider names submitted to the pool (`catalog.py` lines
125-133): `ONLINE_PROVIDERS` order, kept when the name occurs in the
lower-cased requested list. -/
def onlineNames (provList : List String) : List String :=
  ONLINE_PROVIDERS.filter (fun n => strMem n (provList.map pyLower))

/-- The offline-provider names submitted to the pool (`catalog.py` lines
136-145): skipped entirely when `_online_only` is set. -/
def offlineNames (st : CatalogState) (provList : List String) : List String :=
  if st.onlineOnly then []
  else OFFLINE_PROVIDERS.filter (fun n => strMem n (provList.map pyLower))

/-- The per-task outcomes, in submission order (online tasks first, then
offline tasks).  `concurrent.futures.wait` returns the completed futures
as a set, whose iteration order the language leaves arbitrary; submission
order is the fixed representative used by this model. -/
def taskResults (st : CatalogState) (qf : QueryFilter) (provList : List String) :
    List (Except TaskErr (List CatalogItem)) :=
  (onlineNames provList).map
    (fun n => getOnlineProviderItems st.providers n qf st.balanceResources) ++
  (offlineNames st provList).map
    (fun n => getOfflineProviderItems st.catalog n qf)

/-- Model of `[f.result() for f in completed]`: building the argument list for
`heapq.merge` re-raises the first stored task exception. -/
def collectResults :
    List (Except TaskErr (List CatalogItem)) →
      Except TaskErr (List (List CatalogItem))
  | [] => .ok []
  | r :: rs =>
    match r with
    | .error e => .error e
    | .ok l =>
      match collectResults rs with
      | .error e => .error e
      | .ok ls => .ok (l :: ls)

/-- The observable outcome of one `Catalog.query` call: the returned list
or raised error, the state of the `Catalog` afterwards, the source tasks
submitted to the pool, and whether the entry reload block ran. -/
structure QueryOutcome where
  result : Except QueryError (List CatalogItem)
  state : CatalogState
  dispatched : List SourceTask
  reloadAttempted : Bool

/-- The price key of the merge (`key=lambda i: i.price`). -/
def priceKey (i : CatalogItem) : ℚ := i.price

/-- The tasks submitted to the pool for a resolved provider list: online
submissions first (`catalog.py` lines 125-133), then offline submissions
(lines 136-145). -/
def dispatchTasks (st : CatalogState) (provList : List String) : List SourceTask :=
  (onlineNames provList).map SourceTask.online ++
    (offlineNames st provList).map SourceTask.offline

/-- Model of `Catalog.query` (`catalog.py` lines 50-150): the reload block, the
`QueryFilter` construction (its bound validation modelled from the spec),
provider-name validation and defaulting, task dispatch, result collection
and the k-way price merge. -/
def query (st : CatalogState) (env : QueryEnv) (qf₀ : QueryFilter) :
    QueryOutcome :=
  match mkQueryFilter qf₀ with
  | .error e =>
    { result := .error (.validation e)
      state := (reloadBlock st env).1
      dispatched := []
      reloadAttempted := (reloadBlock st env).2 }
  | .ok qf =>
    match resolveProviders (reloadBlock st env).1 qf with
    | .error p =>
      { result := .error (.unknownProvider p)
        state := (reloadBlock st env).1
        dispatched := []
        reloadAttempted := (reloadBlock st env).2 }
    | .ok provList =>
      match collectResults (taskResults (reloadBlock st env).1
          { qf with provider := some provList } provList) with
      | .error e =>
        { result := .error (.sourceTask e)
          state := (reloadBlock st env).1
          dispatched := dispatchTasks (reloadBlock st env).1 provList
          reloadAttempted := (reloadBlock st env).2 }
      | .ok lists =>
        { result := .ok (heapqMerge priceKey lists)
          state := (reloadBlock st env).1
          dispatched := dispatchTasks (reloadBlock st env).1 provList
          reloadAttempted := (reloadBlock st env).2 }

/-- The per-task outcomes of a `query` call, recomputed from the same
pipeline (empty when validation aborts before dispatch). -/
def queryTaskResults (st : CatalogState) (env : QueryEnv) (qf₀ : QueryFilter) :
    List (Except TaskErr (List CatalogItem)) :=
  match mkQueryFilter qf₀ with
  | .error _ => []
  | .ok qf =>
    match resolveProviders (reloadBlock st env).1 qf with
    | .error _ => []
    | .ok provList =>
      taskResults (reloadBlock st env).1
        { qf with provider := some provList } provList

/-- Running a sequence of `query` calls against the same `Catalog`
instance, threading its state. -/
def runQueries (st : CatalogState) :
    List (QueryEnv × QueryFilter) → CatalogState
  | [] => st
  | (env, qf) :: rest => runQueries (query st env qf).state rest

/-- The `reloadAttempted` flags of a sequence of `query` calls. -/
def runAttempts (st : CatalogState) :
    List (QueryEnv × QueryFilter) → List Bool
  | [] => []
  | (env, qf) :: rest =>
    (query st env qf).reloadAttempted :: runAttempts (query st env qf).state rest

def exceptDecEq {E A : Type} [DecidableEq E] [DecidableEq A] :
    DecidableEq (Except E A) := fun a b =>
  match a, b with
  | .error e, .error f =>
    if h : e = f then .isTrue (by rw [h])
    else .isFalse (by intro hc; injection hc; contradiction)
  | .ok x, .ok y =>
    if h : x = y then .isTrue (by rw [h])
    else .isFalse (by intro hc; injection hc; contradiction)
  | .error _, .ok _ => .isFalse (by intro hc; cases hc)
  | .ok _, .error _ => .isFalse (by intro hc; cases hc)

instance {E A : Type} [DecidableEq E] [DecidableEq A] :
    DecidableEq (Except E A) := exceptDecEq

/-- A priced offer with every optional field unset (shared scaffolding for
concrete witnesses). -/
def plainRaw (name : String) (price : ℚ) : RawCatalogItem :=
  { instance_name := name
    location := ""
    price := price
    cpu := none
    memory := none
    gpu_count := 0
    gpu_name := none
    gpu_memory := none
    gpu_vendor := none
    spot := false
    disk_size := none
    compute_capability := none }

/-- A registered crusoe provider whose `get` returns two offers sorted by
price. -/
def wCrusoeSorted : AbstractProvider :=
  { NAME := "crusoe"
    get := fun _ _ => .ok [plainRaw "a" 1, plainRaw "b" 2] }

/-- A catalog with `wCrusoeSorted` registered and `auto_reload=False`. -/
def wState1 : CatalogState :=
  { catalog := none
    loadedAt := none
    providers := [wCrusoeSorted]
    balanceResources := true
    autoReload := false
    onlineOnly := false }

def wEnv : QueryEnv := { now := 0, versionOk := true, download := .openFail }

def wArgsCrusoe : QueryFilter := { emptyFilter with provider := some ["crusoe"] }

def c1WitnessItems : List CatalogItem :=
  [CatalogItem.ofRaw "crusoe" (plainRaw "a" 1), CatalogItem.ofRaw "crusoe" (plainRaw "b" 2)]

def c2ItemX : CatalogItem := CatalogItem.ofRaw "coreweave" (plainRaw "x" 1)

def c2ItemY : CatalogItem := CatalogItem.ofRaw "crusoe" (plainRaw "y" 1)

/-- A snapshot and state for exercising `Catalog.load` failures. -/
def c8Snapshot : Snapshot := [("aws", [plainRaw "m5" 3])]

def c8State : CatalogState :=
  { catalog := some c8Snapshot
    loadedAt := some 5
    providers := []
    balanceResources := true
    autoReload := true
    onlineOnly := false }

def invertedNatPair (lo hi : Option Nat) : Prop :=
  ∃ a b, lo = some a ∧ hi = some b ∧ b < a

def invertedRatPair (lo hi : Option ℚ) : Prop :=
  ∃ a b, lo = some a ∧ hi = some b ∧ b < a

def invertedCcPair (lo hi : Option (Nat × Nat)) : Prop :=
  ∃ a b, lo = some a ∧ hi = some b ∧ ccLeB a b = false

/-- The constraint set contains a numeric bound pair whose min exceeds its
max. -/
def hasInvertedBound (qf : QueryFilter) : Prop :=
  invertedNatPair qf.min_cpu qf.max_cpu ∨
  invertedRatPair qf.min_memory qf.max_memory ∨
  invertedNatPair qf.min_gpu_count qf.max_gpu_count ∨
  invertedRatPair qf.min_gpu_memory qf.max_gpu_memory ∨
  invertedRatPair qf.min_total_gpu_memory qf.max_total_gpu_memory ∨
  invertedNatPair qf.min_disk_size qf.max_disk_size ∨
  invertedRatPair qf.min_price qf.max_price ∨
  invertedCcPair qf.min_compute_capability qf.max_compute_capability

def c3Args : QueryFilter :=
  { emptyFilter with min_price := some 2, max_price := some 1 }

/-- A catalog already stuck in online-only mode. -/
def c6State : CatalogState :=
  { catalog := none
    loadedAt := none
    providers := []
    balanceResources := true
    autoReload := true
    onlineOnly := true }

def c7State : CatalogState :=
  { catalog := none
    loadedAt := none
    providers := []
    balanceResources := true
    autoReload := true
    onlineOnly := false }

def c7Env : QueryEnv := { now := 0, versionOk := false, download := .openFail }

def c7Args : QueryFilter := { emptyFilter with provider := some ["aws"] }

/-- An empty catalog with automatic reloading off and no registered
providers. -/
def c4State : CatalogState :=
  { catalog := none
    loadedAt := none
    providers := []
    balanceResources := true
    autoReload := false
    onlineOnly := false }

def c4BadArgs : QueryFilter :=
  { emptyFilter with provider := some ["not-a-real-source"] }

/-- The three-provider catalog used for the failure-isolation property:
crusoe's fetch raises a transient request error (handled inside
`CrusoeProvider.get`, which then returns `[]`), while coreweave and
hyperstack return fixed offer lists. -/
def c5State (e : ReqErr) (parsed : Except PyExn (List RawCatalogItem))
    (cwRaws hsRaws : List RawCatalogItem) : CatalogState :=
  { catalog := none
    loadedAt := none
    providers :=
      [{ NAME := "crusoe", get := fun _ _ => crusoeGet (.error e) parsed },
       { NAME := "coreweave", get := fun _ _ => .ok cwRaws },
       { NAME := "hyperstack", get := fun _ _ => .ok hsRaws }]
    balanceResources := true
    autoReload := false
    onlineOnly := false }

def c5wArgs : QueryFilter :=
  { emptyFilter with provider := some ["coreweave", "crusoe", "hyperstack"] }

/-- A catalog with a healthy crusoe provider and a hyperstack provider
whose fetched pricing page contains the table but no `tbody`, so that
`HyperstackProvider.get` raises the `AttributeError` of
`price_table.find('tbody').find_all('tr')` (hyperstack.py line 66), which
its `except requests.RequestException` handler does not catch. -/
def c5hsState : CatalogState :=
  { catalog := none
    loadedAt := none
    providers :=
      [{ NAME := "crusoe", get := fun _ _ => crusoeGet (.ok ()) (.ok [plainRaw "cr" 1]) },
       { NAME := "hyperstack", get := fun _ _ => hyperstackGet (.ok .tableWithoutTbody) }]
    balanceResources := true
    autoReload := false
    onlineOnly := false }

def c5hsArgs : QueryFilter :=
  { emptyFilter with provider := some ["crusoe", "hyperstack"] }

def c9CwRowHigh : CwRow :=
  { gpuName := some "H100 HGX"
    memorySize := some 80
    cpuCores := some 8
    ramSize := some 128
    priceText := "$4"
    priceVal := some 4 }

def c9CwRowLow : CwRow :=
  { gpuName := some "A40 PCIe"
    memorySize := some 48
    cpuCores := some 4
    ramSize := some 64
    priceText := "$1"
    priceVal := some 1 }

def c9HsRowHigh : HsRow :=
  { cellCount := 5
    gpuName := "NVIDIA H100"
    vram := some 80
    maxCpus := some 28
    maxRam := some 180
    priceVal := some 2 }

def c9HsRowLow : HsRow :=
  { cellCount := 5
    gpuName := "NVIDIA A4000"
    vram := some 16
    maxCpus := some 12
    maxRam := some 48
    priceVal := some 1 }

section KWayMerge

variable {α : Type}

theorem selectMin_eq_none (key : α → ℚ) :
    ∀ ls : List (List α), selectMin key ls = none → ∀ l ∈ ls, l = [] := by
  intro ls
  induction ls with
  | nil => intro _ l hl; cases hl
  | cons l rest ih =>
    intro h l' hl'
    cases l with
    | nil =>
      cases hsel : selectMin key rest with
      | none =>
        rcases List.mem_cons.mp hl' with hl' | hl'
        · exact hl'
        · exact ih hsel l' hl'
      | some p => simp [selectMin, hsel] at h
    | cons a as =>
      cases hsel : selectMin key rest with
      | none => simp [selectMin, hsel] at h
      | some p =>
        rcases p with ⟨b, rest'⟩
        by_cases hab : key a ≤ key b <;> simp [selectMin, hsel, hab] at h

theorem selectMin_self_mem (key : α → ℚ) :
    ∀ ls : List (List α), ∀ x ls', selectMin key ls = some (x, ls') →
      ∃ l ∈ ls, x ∈ l := by
  intro ls
  induction ls with
  | nil => intro x ls' h; simp [selectMin] at h
  | cons l rest ih =>
    intro x ls' h
    cases l with
    | nil =>
      cases hsel : selectMin key rest with
      | none => simp [selectMin, hsel] at h
      | some p =>
        rcases p with ⟨b, rest'⟩
        simp [selectMin, hsel] at h
        rcases ih b rest' hsel with ⟨l, hl, hb⟩
        exact ⟨l, List.mem_cons_of_mem _ hl, h.1 ▸ hb⟩
    | cons a as =>
      cases hsel : selectMin key rest with
      | none =>
        simp [selectMin, hsel] at h
        exact ⟨a :: as, List.mem_cons_self _ _, h.1 ▸ List.mem_cons_self a as⟩
      | some p =>
        rcases p with ⟨b, rest'⟩
        by_cases hab : key a ≤ key b
        · simp [selectMin, hsel, hab] at h
          exact ⟨a :: as, List.mem_cons_self _ _, h.1 ▸ List.mem_cons_self a as⟩
        · simp [selectMin, hsel, hab] at h
          rcases ih b rest' hsel with ⟨l, hl, hb⟩
          exact ⟨l, List.mem_cons_of_mem _ hl, h.1 ▸ hb⟩

theorem selectMin_residual_mem (key : α → ℚ) :
    ∀ ls : List (List α), ∀ x ls', selectMin key ls = some (x, ls') →
      ∀ y, (∃ l' ∈ ls', y ∈ l') → ∃ l ∈ ls, y ∈ l := by
  intro ls
  induction ls with
  | nil => intro x ls' h; simp [selectMin] at h
  | cons l rest ih =>
    intro x ls' h y hy
    cases l with
    | nil =>
      cases hsel : selectMin key rest with
      | none => simp [selectMin, hsel] at h
      | some p =>
        rcases p with ⟨b, rest'⟩
        simp [selectMin, hsel] at h
        rcases hy with ⟨l', hl', hyl'⟩
        rw [← h.2] at hl'
        rcases List.mem_cons.mp hl' with hl' | hl'
        · subst hl'; cases hyl'
        · rcases ih b rest' hsel y ⟨l', hl', hyl'⟩ with ⟨l, hl, hyl⟩
          exact ⟨l, List.mem_cons_of_mem _ hl, hyl⟩
    | cons a as =>
      cases hsel : selectMin key rest with
      | none =>
        simp [selectMin, hsel] at h
        rcases hy with ⟨l', hl', hyl'⟩
        rw [← h.2] at hl'
        rcases List.mem_cons.mp hl' with hl' | hl'
        · exact ⟨a :: as, List.mem_cons_self _ _, hl' ▸ List.mem_cons_of_mem a hyl'⟩
        · exact ⟨l', List.mem_cons_of_mem _ hl', hyl'⟩
      | some p =>
        rcases p with ⟨b, rest'⟩
        by_cases hab : key a ≤ key b
        · simp [selectMin, hsel, hab] at h
          rcases hy with ⟨l', hl', hyl'⟩
          rw [← h.2] at hl'
          rcases List.mem_cons.mp hl' with hl' | hl'
          · exact ⟨a :: as, List.mem_cons_self _ _, hl' ▸ List.mem_cons_of_mem a hyl'⟩
          · exact ⟨l', List.mem_cons_of_mem _ hl', hyl'⟩
        · simp [selectMin, hsel, hab] at h
          rcases hy with ⟨l', hl', hyl'⟩
          rw [← h.2] at hl'
          rcases List.mem_cons.mp hl' with hl' | hl'
          · exact ⟨a :: as, List.mem_cons_self _ _, hl' ▸ hyl'⟩
          · rcases ih b rest' hsel y ⟨l', hl', hyl'⟩ with ⟨l, hl, hyl⟩
            exact ⟨l, List.mem_cons_of_mem _ hl, hyl⟩

theorem selectMin_is_min (key : α → ℚ) :
    ∀ ls : List (List α), (∀ l ∈ ls, l.Pairwise (keyLE key)) →
      ∀ x ls', selectMin key ls = some (x, ls') →
      ∀ l ∈ ls, ∀ y ∈ l, key x ≤ key y := by
  intro ls
  induction ls with
  | nil => intro _ x ls' h; simp [selectMin] at h
  | cons l rest ih =>
    intro hsorted x ls' h l₀ hl₀ y hy
    have hrest : ∀ l ∈ rest, l.Pairwise (keyLE key) := fun l hl =>
      hsorted l (List.mem_cons_of_mem _ hl)
    cases l with
    | nil =>
      cases hsel : selectMin key rest with
      | none => simp [selectMin, hsel] at h
      | some p =>
        rcases p with ⟨b, rest'⟩
        simp [selectMin, hsel] at h
        rcases List.mem_cons.mp hl₀ with hl₀ | hl₀
        · subst hl₀; cases hy
        · exact h.1 ▸ ih hrest b rest' hsel l₀ hl₀ y hy
    | cons a as =>
      have hcons : (a :: as).Pairwise (keyLE key) :=
        hsorted (a :: as) (List.mem_cons_self _ _)
      have hhead : ∀ y ∈ a :: as, key a ≤ key y := by
        intro y hy
        rcases List.mem_cons.mp hy with hy | hy
        · exact hy ▸ le_refl _
        · exact (List.pairwise_cons.mp hcons).1 y hy
      cases hsel : selectMin key rest with
      | none =>
        simp [selectMin, hsel] at h
        rcases List.mem_cons.mp hl₀ with hl₀ | hl₀
        · exact h.1 ▸ hhead y (hl₀ ▸ hy)
        · have := selectMin_eq_none key rest hsel l₀ hl₀
          subst this; cases hy
      | some p =>
        rcases p with ⟨b, rest'⟩
        have hbmin : ∀ l ∈ rest, ∀ y ∈ l, key b ≤ key y :=
          ih hrest b rest' hsel
        by_cases hab : key a ≤ key b
        · simp [selectMin, hsel, hab] at h
          rcases List.mem_cons.mp hl₀ with hl₀ | hl₀
          · exact h.1 ▸ hhead y (hl₀ ▸ hy)
          · exact h.1 ▸ le_trans hab (hbmin l₀ hl₀ y hy)
        · simp [selectMin, hsel, hab] at h
          have hba : key b ≤ key a := le_of_lt (lt_of_not_le hab)
          rcases List.mem_cons.mp hl₀ with hl₀ | hl₀
          · exact h.1 ▸ le_trans hba (hhead y (hl₀ ▸ hy))
          · exact h.1 ▸ hbmin l₀ hl₀ y hy

theorem selectMin_residual_sorted (key : α → ℚ) :
    ∀ ls : List (List α), (∀ l ∈ ls, l.Pairwise (keyLE key)) →
      ∀ x ls', selectMin key ls = some (x, ls') →
      ∀ l' ∈ ls', l'.Pairwise (keyLE key) := by
  intro ls
  induction ls with
  | nil => intro _ x ls' h; simp [selectMin] at h
  | cons l rest ih =>
    intro hsorted x ls' h l₀ hl₀
    have hrest : ∀ l ∈ rest, l.Pairwise (keyLE key) := fun l hl =>
      hsorted l (List.mem_cons_of_mem _ hl)
    cases l with
    | nil =>
      cases hsel : selectMin key rest with
      | none => simp [selectMin, hsel] at h
      | some p =>
        rcases p with ⟨b, rest'⟩
        simp [selectMin, hsel] at h
        rw [← h.2] at hl₀
        rcases List.mem_cons.mp hl₀ with hl₀ | hl₀
        · subst hl₀; exact List.Pairwise.nil
        · exact ih hrest b rest' hsel l₀ hl₀
    | cons a as =>
      have hcons : (a :: as).Pairwise (keyLE key) :=
        hsorted (a :: as) (List.mem_cons_self _ _)
      cases hsel : selectMin key rest with
      | none =>
        simp [selectMin, hsel] at h
        rw [← h.2] at hl₀
        rcases List.mem_cons.mp hl₀ with hl₀ | hl₀
        · exact hl₀ ▸ (List.pairwise_cons.mp hcons).2
        · exact hrest l₀ hl₀
      | some p =>
        rcases p with ⟨b, rest'⟩
        by_cases hab : key a ≤ key b
        · simp [selectMin, hsel, hab] at h
          rw [← h.2] at hl₀
          rcases List.mem_cons.mp hl₀ with hl₀ | hl₀
          · exact hl₀ ▸ (List.pairwise_cons.mp hcons).2
          · exact hrest l₀ hl₀
        · simp [selectMin, hsel, hab] at h
          rw [← h.2] at hl₀
          rcases List.mem_cons.mp hl₀ with hl₀ | hl₀
          · exact hl₀ ▸ hcons
          · exact ih hrest b rest' hsel l₀ hl₀

theorem mem_heapqMergeGo (key : α → ℚ) :
    ∀ fuel (ls : List (List α)), ∀ y ∈ heapqMergeGo key fuel ls,
      ∃ l ∈ ls, y ∈ l := by
  intro fuel
  induction fuel with
  | zero => intro ls y hy; cases hy
  | succ fuel ih =>
    intro ls y hy
    cases hsel : selectMin key ls with
    | none => rw [heapqMergeGo, hsel] at hy; cases hy
    | some p =>
      rcases p with ⟨x, ls'⟩
      rw [heapqMergeGo, hsel] at hy
      rcases List.mem_cons.mp hy with hy | hy
      · exact hy ▸ selectMin_self_mem key ls x ls' hsel
      · rcases ih ls' y hy with ⟨l', hl', hyl'⟩
        exact selectMin_residual_mem key ls x ls' hsel y ⟨l', hl', hyl'⟩

theorem heapqMergeGo_sorted (key : α → ℚ) :
    ∀ fuel (ls : List (List α)), (∀ l ∈ ls, l.Pairwise (keyLE key)) →
      (heapqMergeGo key fuel ls).Pairwise (keyLE key) := by
  intro fuel
  induction fuel with
  | zero => intro ls _; exact List.Pairwise.nil
  | succ fuel ih =>
    intro ls hsorted
    cases hsel : selectMin key ls with
    | none => rw [heapqMergeGo, hsel]; exact List.Pairwise.nil
    | some p =>
      rcases p with ⟨x, ls'⟩
      rw [heapqMergeGo, hsel]
      refine List.pairwise_cons.mpr ⟨?_, ?_⟩
      · intro y hy
        rcases mem_heapqMergeGo key fuel ls' y hy with ⟨l', hl', hyl'⟩
        have hmem := selectMin_residual_mem key ls x ls' hsel y ⟨l', hl', hyl'⟩
        rcases hmem with ⟨l, hl, hyl⟩
        exact selectMin_is_min key ls hsorted x ls' hsel l hl y hyl
      · exact ih ls' (selectMin_residual_sorted key ls hsorted x ls' hsel)

/-- If every input list is individually non-decreasing by key, the k-way
merge output is globally non-decreasing by key. -/
theorem heapqMerge_sorted (key : α → ℚ) (ls : List (List α))
    (h : ∀ l ∈ ls, l.Pairwise (keyLE key)) :
    (heapqMerge key ls).Pairwise (keyLE key) :=
  heapqMergeGo_sorted key _ ls h

end KWayMerge

section PySorted

variable {α : Type}

theorem mem_pyInsert (key : α → ℚ) (x : α) :
    ∀ l z, z ∈ pyInsert key x l ↔ z = x ∨ z ∈ l := by
  intro l
  induction l with
  | nil => intro z; simp [pyInsert]
  | cons y ys ih =>
    intro z
    by_cases h : key y ≤ key x
    · rw [pyInsert, if_pos h, List.mem_cons, ih z, List.mem_cons]
      tauto
    · rw [pyInsert, if_neg h]
      simp only [List.mem_cons]

theorem pyInsert_sorted (key : α → ℚ) (x : α) :
    ∀ l, l.Pairwise (keyLE key) → (pyInsert key x l).Pairwise (keyLE key) := by
  intro l
  induction l with
  | nil => intro _; simp [pyInsert, keyLE]
  | cons y ys ih =>
    intro hsorted
    rcases List.pairwise_cons.mp hsorted with ⟨hy, hys⟩
    by_cases h : key y ≤ key x
    · rw [pyInsert, if_pos h]
      refine List.pairwise_cons.mpr ⟨?_, ih hys⟩
      intro z hz
      rcases (mem_pyInsert key x ys z).mp hz with hz | hz
      · exact hz ▸ h
      · exact hy z hz
    · rw [pyInsert, if_neg h]
      have hxy : key x ≤ key y := le_of_lt (lt_of_not_le h)
      refine List.pairwise_cons.mpr ⟨?_, hsorted⟩
      intro z hz
      rcases List.mem_cons.mp hz with hz | hz
      · exact hz ▸ hxy
      · exact le_trans hxy (hy z hz)

theorem pySorted_sorted (key : α → ℚ) (l : List α) :
    (pySorted key l).Pairwise (keyLE key) := by
  suffices h : ∀ m acc : List α, List.Pairwise (keyLE key) acc →
      List.Pairwise (keyLE key) (m.foldl (fun acc x => pyInsert key x acc) acc) by
    exact h l [] List.Pairwise.nil
  intro m
  induction m with
  | nil => intro acc hacc; exact hacc
  | cons x xs ih =>
    intro acc hacc
    exact ih (pyInsert key x acc) (pyInsert_sorted key x acc hacc)

end PySorted

theorem strMem_iff (x : String) :
    ∀ l : List String, strMem x l = true ↔ x ∈ l := by
  intro l
  induction l with
  | nil => simp [strMem]
  | cons y ys ih => simp [strMem, ih, List.mem_cons]

theorem collectResults_mem (rs : List (Except TaskErr (List CatalogItem)))
    (ls : List (List CatalogItem)) (h : collectResults rs = .ok ls) :
    ∀ l ∈ ls, (Except.ok l : Except TaskErr (List CatalogItem)) ∈ rs := by
  induction rs generalizing ls with
  | nil =>
    intro l hl
    simp only [collectResults] at h
    injection h with h
    subst h; cases hl
  | cons r rest ih =>
    intro l hl
    cases r with
    | error e => simp [collectResults] at h
    | ok l₀ =>
      cases hrest : collectResults rest with
      | error e => simp [collectResults, hrest] at h
      | ok ls₀ =>
        simp only [collectResults, hrest] at h
        injection h with h
        subst h
        rcases List.mem_cons.mp hl with hl | hl
        · exact hl ▸ List.mem_cons_self _ _
        · exact List.mem_cons_of_mem _ (ih ls₀ hrest l hl)

/-- C1: for every query in which each dispatched source task produces a
list of offers that is individually sorted ascending by price, the list
returned by `Catalog.query` is globally non-decreasing by price. -/
theorem c1_query_merge_sorted (st : CatalogState) (env : QueryEnv)
    (qf₀ : QueryFilter) (items : List CatalogItem)
    (hsorted : ∀ r ∈ queryTaskResults st env qf₀, ∀ l,
      r = .ok l → l.Pairwise (keyLE priceKey))
    (hok : (query st env qf₀).result = .ok items) :
    items.Pairwise (keyLE priceKey) := by
  cases hmk : mkQueryFilter qf₀ with
  | error e => simp [query, hmk] at hok
  | ok qf =>
    cases hres : resolveProviders (reloadBlock st env).1 qf with
    | error p => simp [query, hmk, hres] at hok
    | ok provList =>
      cases hcol : collectResults (taskResults (reloadBlock st env).1
          { qf with provider := some provList } provList) with
      | error e => simp [query, hmk, hres, hcol] at hok
      | ok lists =>
        have hitems : heapqMerge priceKey lists = items := by
          simpa [query, hmk, hres, hcol] using hok
        have htr : queryTaskResults st env qf₀ = taskResults (reloadBlock st env).1
            { qf with provider := some provList } provList := by
          simp [queryTaskResults, hmk, hres]
        subst hitems
        apply heapqMerge_sorted
        intro l hl
        refine hsorted (.ok l) ?_ l rfl
        rw [htr]
        exact collectResults_mem _ _ hcol l hl

theorem c1_witness : c1WitnessItems.Pairwise (keyLE priceKey) := by
  apply c1_query_merge_sorted wState1 wEnv wArgsCrusoe c1WitnessItems
  · have hq : queryTaskResults wState1 wEnv wArgsCrusoe = [.ok c1WitnessItems] := by
      decide
    intro r hr l hl
    rw [hq] at hr
    rcases List.mem_cons.mp hr with hr | hr
    · subst hr
      injection hl with hl
      subst hl
      decide
    · cases hr
  · decide

theorem query_state (st : CatalogState) (env : QueryEnv) (qf₀ : QueryFilter) :
    (query st env qf₀).state = (reloadBlock st env).1 := by
  unfold query
  split
  · rfl
  · split
    · rfl
    · split <;> rfl

theorem query_reloadAttempted (st : CatalogState) (env : QueryEnv)
    (qf₀ : QueryFilter) :
    (query st env qf₀).reloadAttempted = (reloadBlock st env).2 := by
  unfold query
  split
  · rfl
  · split
    · rfl
    · split <;> rfl

/-- C2: two distinct equal-priced offers from two different source tasks
appear in the merged output exactly in the order their one-element result
lists are handed to `heapq.merge`; handing the same two lists over in the
opposite order reverses the tie.  In `Catalog.query` the hand-off order is
the iteration order of the set of futures returned by
`concurrent.futures.wait`, so the tie order is as run-dependent as that
set's iteration order — not the fixed deterministic source order the claim
asserts. -/
theorem c2_tie_order_follows_handoff :
    c2ItemX.price = c2ItemY.price ∧ c2ItemX ≠ c2ItemY ∧
    heapqMerge priceKey [[c2ItemX], [c2ItemY]] = [c2ItemX, c2ItemY] ∧
    heapqMerge priceKey [[c2ItemY], [c2ItemX]] = [c2ItemY, c2ItemX] := by
  refine ⟨rfl, by decide, rfl, rfl⟩

/-- C8: `Catalog.load` is not atomic with respect to `loaded_at`.  A
download that fails after the connection opens (`f.read()` fails) leaves
the previous snapshot in place but has already overwritten `loaded_at`
with the current time, because the source assigns `self.loaded_at =
time.monotonic()` before reading the body: a partial state update is
observable on error. -/
theorem c8_load_partial_update :
    (load c8State 100 .readFail).2 = some .urlError ∧
    (load c8State 100 .readFail).1.catalog = c8State.catalog ∧
    c8State.loadedAt = some 5 ∧
    (load c8State 100 .readFail).1.loadedAt = some 100 :=
  ⟨rfl, rfl, rfl, rfl⟩

theorem validBounds_eq_false_of_inverted (qf : QueryFilter)
    (h : hasInvertedBound qf) : validBounds qf = false := by
  rcases h with h | h | h | h | h | h | h | h
  · rcases h with ⟨a, b, hlo, hhi, hba⟩
    have hn : ¬ a ≤ b := Nat.not_le.mpr hba
    simp [validBounds, natPairOk, hlo, hhi, hn]
  · rcases h with ⟨a, b, hlo, hhi, hba⟩
    have hn : ¬ a ≤ b := not_le.mpr hba
    simp [validBounds, ratPairOk, hlo, hhi, hn]
  · rcases h with ⟨a, b, hlo, hhi, hba⟩
    have hn : ¬ a ≤ b := Nat.not_le.mpr hba
    simp [validBounds, natPairOk, hlo, hhi, hn]
  · rcases h with ⟨a, b, hlo, hhi, hba⟩
    have hn : ¬ a ≤ b := not_le.mpr hba
    simp [validBounds, ratPairOk, hlo, hhi, hn]
  · rcases h with ⟨a, b, hlo, hhi, hba⟩
    have hn : ¬ a ≤ b := not_le.mpr hba
    simp [validBounds, ratPairOk, hlo, hhi, hn]
  · rcases h with ⟨a, b, hlo, hhi, hba⟩
    have hn : ¬ a ≤ b := Nat.not_le.mpr hba
    simp [validBounds, natPairOk, hlo, hhi, hn]
  · rcases h with ⟨a, b, hlo, hhi, hba⟩
    have hn : ¬ a ≤ b := not_le.mpr hba
    simp [validBounds, ratPairOk, hlo, hhi, hn]
  · rcases h with ⟨a, b, hlo, hhi, hba⟩
    simp [validBounds, ccPairOk, hlo, hhi, hba]

/-- C3: a constraint set with a min > max bound pair makes `Catalog.query`
fail with the validation error raised while building the `QueryFilter`,
and no source task is dispatched. -/
theorem c3_inverted_bounds_reject (st : CatalogState) (env : QueryEnv)
    (qf₀ : QueryFilter) (h : hasInvertedBound qf₀) :
    (query st env qf₀).result = .error (.validation .invalidBounds) ∧
    (query st env qf₀).dispatched = [] := by
  have hv := validBounds_eq_false_of_inverted qf₀ h
  have hmk : mkQueryFilter qf₀ = .error .invalidBounds := by
    simp [mkQueryFilter, hv]
  constructor <;> simp [query, hmk]

theorem c3_witness :
    (query initState wEnv c3Args).result = .error (.validation .invalidBounds) ∧
    (query initState wEnv c3Args).dispatched = [] :=
  c3_inverted_bounds_reject initState wEnv c3Args
    (Or.inr (Or.inr (Or.inr (Or.inr (Or.inr (Or.inr
      (Or.inl ⟨2, 1, rfl, rfl, by norm_num⟩)))))))

theorem reloadBlock_snd (st : CatalogState) (env : QueryEnv) :
    (reloadBlock st env).2 = reloadDue st env.now := by
  unfold reloadBlock load
  cases hb : reloadDue st env.now
  · simp
  · by_cases hv : env.versionOk = true <;> cases env.download <;> simp [hv]

theorem reloadDue_false_of_onlineOnly (st : CatalogState) (now : Nat)
    (h : st.onlineOnly = true) : reloadDue st now = false := by
  simp [reloadDue, h]

theorem reloadBlock_of_onlineOnly (st : CatalogState) (env : QueryEnv)
    (h : st.onlineOnly = true) : reloadBlock st env = (st, false) := by
  unfold reloadBlock
  rw [reloadDue_false_of_onlineOnly st env.now h]
  rfl

/-- C6: `Catalog.query` attempts a snapshot reload only when the catalog
is not in online-only mode and `loaded_at` is unset or more than
`RELOAD_INTERVAL` (15 minutes) has elapsed since the last load; and once
`_online_only` is set, no later query on the same instance ever attempts a
reload and the flag is never cleared. -/
theorem c6_reload_policy :
    (∀ st env qf₀, (query st env qf₀).reloadAttempted = true →
      st.onlineOnly = false ∧
        (st.loadedAt = none ∨
          ∃ t, st.loadedAt = some t ∧ RELOAD_INTERVAL < env.now - t)) ∧
    (∀ st inputs, st.onlineOnly = true →
      (runQueries st inputs).onlineOnly = true ∧
      ∀ b ∈ runAttempts st inputs, b = false) := by
  constructor
  · intro st env qf₀ hatt
    rw [query_reloadAttempted, reloadBlock_snd] at hatt
    unfold reloadDue at hatt
    simp only [Bool.and_eq_true, Bool.not_eq_true'] at hatt
    refine ⟨hatt.1.1, ?_⟩
    cases hload : st.loadedAt with
    | none => exact Or.inl rfl
    | some t =>
      rw [hload] at hatt
      exact Or.inr ⟨t, rfl, of_decide_eq_true hatt.2⟩
  · intro st inputs
    induction inputs generalizing st with
    | nil =>
      intro h
      exact ⟨h, fun b hb => absurd hb (List.not_mem_nil b)⟩
    | cons iq rest ih =>
      intro h
      rcases iq with ⟨env, qf₀⟩
      have hrb := reloadBlock_of_onlineOnly st env h
      have hstate : (query st env qf₀).state = st := by
        rw [query_state, hrb]
      have hatt : (query st env qf₀).reloadAttempted = false := by
        rw [query_reloadAttempted, hrb]
      constructor
      · show (runQueries (query st env qf₀).state rest).onlineOnly = true
        rw [hstate]
        exact (ih st h).1
      · intro b hb
        simp only [runAttempts] at hb
        rcases List.mem_cons.mp hb with hb | hb
        · rw [hb, hatt]
        · rw [hstate] at hb
          exact (ih st h).2 b hb

theorem c6_witness :
    (runQueries c6State [(wEnv, emptyFilter)]).onlineOnly = true ∧
    ∀ b ∈ runAttempts c6State [(wEnv, emptyFilter)], b = false :=
  c6_reload_policy.2 c6State [(wEnv, emptyFilter)] rfl

/-- C7: on a catalog that has never loaded, a query whose reload hits a
network failure on the version fetch flips the loader into online-only
mode, and when the query is restricted to offline sources it returns an
empty list rather than raising. -/
theorem c7_version_failure_online_only (st : CatalogState) (env : QueryEnv)
    (qf₀ : QueryFilter) (ps : List String)
    (hload : st.loadedAt = none) (honline : st.onlineOnly = false)
    (hauto : st.autoReload = true) (hver : env.versionOk = false)
    (hprov : qf₀.provider = some ps)
    (hoff : ∀ p ∈ ps, pyLower p ∈ OFFLINE_PROVIDERS)
    (hv : validBounds qf₀ = true) :
    (query st env qf₀).state.onlineOnly = true ∧
    (query st env qf₀).result = .ok [] := by
  have hdue : reloadDue st env.now = true := by
    simp [reloadDue, honline, hauto, hload]
  have hrb : reloadBlock st env = ({ st with onlineOnly := true }, true) := by
    unfold reloadBlock
    rw [hdue, hver]
    rfl
  have hmk : mkQueryFilter qf₀ = .ok qf₀ := by simp [mkQueryFilter, hv]
  have hres : resolveProviders { st with onlineOnly := true } qf₀ = .ok ps := by
    have hf : ps.find? (fun p =>
        !strMem (pyLower p) ((OFFLINE_PROVIDERS ++ ONLINE_PROVIDERS).map pyLower)) =
          none := by
      apply List.find?_eq_none.mpr
      intro p hp
      have h2 : ∀ x ∈ OFFLINE_PROVIDERS,
          x ∈ (OFFLINE_PROVIDERS ++ ONLINE_PROVIDERS).map pyLower := by decide
      have h3 : strMem (pyLower p)
          ((OFFLINE_PROVIDERS ++ ONLINE_PROVIDERS).map pyLower) = true :=
        (strMem_iff _ _).mpr (h2 _ (hoff p hp))
      simp only [h3, Bool.not_true]
      exact Bool.false_ne_true
    simp only [resolveProviders, hprov, hf]
  have hon : onlineNames ps = [] := by
    rw [onlineNames, List.filter_eq_nil_iff]
    intro n hn
    intro hmem
    rcases List.mem_map.mp ((strMem_iff _ _).mp hmem) with ⟨p, hp, hpl⟩
    have h1 : pyLower p ∈ OFFLINE_PROVIDERS := hoff p hp
    have h2 : ∀ x ∈ ONLINE_PROVIDERS, x ∉ OFFLINE_PROVIDERS := by decide
    exact h2 n hn (hpl ▸ h1)
  have hoffn : offlineNames { st with onlineOnly := true } ps = [] := by
    simp [offlineNames]
  have htr : taskResults { st with onlineOnly := true }
      { qf₀ with provider := some ps } ps = [] := by
    simp [taskResults, hon, hoffn]
  constructor
  · rw [query_state, hrb]
  · simp [query, hmk, hrb, hres, htr, collectResults, heapqMerge, heapqMergeGo]

theorem c7_witness :
    (query c7State c7Env c7Args).state.onlineOnly = true ∧
    (query c7State c7Env c7Args).result = .ok [] :=
  c7_version_failure_online_only c7State c7Env c7Args ["aws"]
    rfl rfl rfl rfl rfl (by decide) (by decide)

theorem reloadBlock_providers (st : CatalogState) (env : QueryEnv) :
    (reloadBlock st env).1.providers = st.providers := by
  unfold reloadBlock load
  cases hb : reloadDue st env.now
  · rfl
  · by_cases hv : env.versionOk = true <;> cases env.download <;> simp [hv]

theorem onlineItemsLoop_not_found (name : String) (qf : QueryFilter)
    (balance : Bool) :
    ∀ providers, (∀ pr ∈ providers, pr.NAME ≠ name) →
      onlineItemsLoop name qf balance providers = .ok (false, []) := by
  intro providers
  induction providers with
  | nil => intro _; rfl
  | cons p ps ih =>
    intro h
    have hne : ¬ p.NAME = name := h p (List.mem_cons_self _ _)
    simp only [onlineItemsLoop, if_neg hne]
    exact ih (fun pr hpr => h pr (List.mem_cons_of_mem _ hpr))

theorem getOnlineProviderItems_not_found (providers : List AbstractProvider)
    (name : String) (qf : QueryFilter) (balance : Bool)
    (h : ∀ pr ∈ providers, pr.NAME ≠ name) :
    getOnlineProviderItems providers name qf balance =
      .error (.providerNotLoaded name) := by
  unfold getOnlineProviderItems
  rw [onlineItemsLoop_not_found name qf balance providers h]

theorem collectResults_ok_forall (rs : List (Except TaskErr (List CatalogItem)))
    (ls : List (List CatalogItem)) (h : collectResults rs = .ok ls) :
    ∀ r ∈ rs, ∃ l, r = .ok l := by
  induction rs generalizing ls with
  | nil => intro r hr; cases hr
  | cons r₀ rest ih =>
    intro r hr
    cases r₀ with
    | error e => simp [collectResults] at h
    | ok l₀ =>
      cases hrest : collectResults rest with
      | error e => simp [collectResults, hrest] at h
      | ok ls₀ =>
        rcases List.mem_cons.mp hr with hr | hr
        · exact ⟨l₀, hr⟩
        · exact ih ls₀ hrest r hr

/-- C4 counterexample: requesting the known live source `"crusoe"` on a
catalog where no crusoe provider is registered passes the entry
validation (which checks the static `OFFLINE_PROVIDERS + ONLINE_PROVIDERS`
universe, not the registry), dispatches the crusoe source task, and only
then fails — with the `ValueError("Provider is not loaded: ...")` raised
inside the dispatched task and re-raised when results are collected.  The
error is therefore not raised before any source task is dispatched, as
the claim states. -/
theorem c4_counterexample :
    (query c4State wEnv wArgsCrusoe).result =
      .error (.sourceTask (.providerNotLoaded "crusoe")) ∧
    (query c4State wEnv wArgsCrusoe).dispatched = [SourceTask.online "crusoe"] :=
  ⟨rfl, rfl⟩

/-- C4 amended: requested names are validated against the static universe
`OFFLINE_PROVIDERS ∪ ONLINE_PROVIDERS`; a name outside it raises the
invalid-argument error before any task is dispatched.  A known live name
whose provider is not registered still makes the whole query raise (never
a zero-offers success), but that error surfaces from the dispatched
source task at result-collection time, after dispatch. -/
theorem c4_amended :
    (∀ (st : CatalogState) (env : QueryEnv) (qf₀ : QueryFilter)
        (ps : List String) (p : String),
      qf₀.provider = some ps → validBounds qf₀ = true → p ∈ ps →
      pyLower p ∉ (OFFLINE_PROVIDERS ++ ONLINE_PROVIDERS).map pyLower →
      (∃ q, (query st env qf₀).result = .error (.unknownProvider q)) ∧
        (query st env qf₀).dispatched = []) ∧
    (∀ (st : CatalogState) (env : QueryEnv) (qf₀ : QueryFilter)
        (ps : List String) (n : String),
      qf₀.provider = some ps → validBounds qf₀ = true →
      n ∈ ONLINE_PROVIDERS → n ∈ ps.map pyLower →
      (∀ pr ∈ st.providers, pr.NAME ≠ n) →
      ∃ e, (query st env qf₀).result = .error e) := by
  constructor
  · intro st env qf₀ ps p hprov hv hp hbad
    have hmk : mkQueryFilter qf₀ = .ok qf₀ := by simp [mkQueryFilter, hv]
    cases hf : ps.find? (fun p =>
        !strMem (pyLower p) ((OFFLINE_PROVIDERS ++ ONLINE_PROVIDERS).map pyLower)) with
    | none =>
      exfalso
      have hne := List.find?_eq_none.mp hf p hp
      have hb : strMem (pyLower p)
          ((OFFLINE_PROVIDERS ++ ONLINE_PROVIDERS).map pyLower) = false := by
        cases hsm : strMem (pyLower p)
            ((OFFLINE_PROVIDERS ++ ONLINE_PROVIDERS).map pyLower)
        · rfl
        · exact absurd ((strMem_iff _ _).mp hsm) hbad
      rw [hb] at hne
      exact hne rfl
    | some q =>
      have hres : resolveProviders (reloadBlock st env).1 qf₀ = .error q := by
        simp only [resolveProviders, hprov, hf]
      constructor
      · exact ⟨q, by simp [query, hmk, hres]⟩
      · simp [query, hmk, hres]
  · intro st env qf₀ ps n hprov hv hON hmem hreg
    have hmk : mkQueryFilter qf₀ = .ok qf₀ := by simp [mkQueryFilter, hv]
    cases hres : resolveProviders (reloadBlock st env).1 qf₀ with
    | error p => exact ⟨.unknownProvider p, by simp [query, hmk, hres]⟩
    | ok provList =>
      have hps : provList = ps := by
        simp only [resolveProviders, hprov] at hres
        cases hf : ps.find? (fun p =>
            !strMem (pyLower p) ((OFFLINE_PROVIDERS ++ ONLINE_PROVIDERS).map pyLower)) with
        | some q => rw [hf] at hres; simp at hres
        | none =>
          rw [hf] at hres
          simp at hres
          exact hres.symm
      rw [hps] at hres
      have hn : n ∈ onlineNames ps := by
        apply List.mem_filter.mpr
        exact ⟨hON, (strMem_iff _ _).mpr hmem⟩
      have htask : getOnlineProviderItems (reloadBlock st env).1.providers n
          { qf₀ with provider := some ps } (reloadBlock st env).1.balanceResources =
            .error (.providerNotLoaded n) := by
        apply getOnlineProviderItems_not_found
        rw [reloadBlock_providers]
        exact hreg
      have hmemtask : (Except.error (.providerNotLoaded n) :
          Except TaskErr (List CatalogItem)) ∈
            taskResults (reloadBlock st env).1 { qf₀ with provider := some ps } ps := by
        apply List.mem_append_left
        apply List.mem_map.mpr
        exact ⟨n, hn, htask⟩
      cases hcol : collectResults (taskResults (reloadBlock st env).1
          { qf₀ with provider := some ps } ps) with
      | error e => exact ⟨.sourceTask e, by simp [query, hmk, hres, hcol]⟩
      | ok lists =>
        exfalso
        rcases collectResults_ok_forall _ _ hcol _ hmemtask with ⟨l, hl⟩
        cases hl

theorem c4_witness :
    ((∃ q, (query initState wEnv c4BadArgs).result = .error (.unknownProvider q)) ∧
      (query initState wEnv c4BadArgs).dispatched = []) ∧
    (∃ e, (query c4State wEnv wArgsCrusoe).result = .error e) := by
  constructor
  · exact c4_amended.1 initState wEnv c4BadArgs ["not-a-real-source"]
      "not-a-real-source" rfl (by decide) (by decide) (by decide)
  · exact c4_amended.2 c4State wEnv wArgsCrusoe ["crusoe"] "crusoe"
      rfl (by decide) (by decide) (by decide)
      (by intro pr hpr; cases hpr)

theorem collectResults_ok_of_forall
    (rs : List (Except TaskErr (List CatalogItem)))
    (h : ∀ r ∈ rs, ∃ l, r = .ok l) : ∃ ls, collectResults rs = .ok ls := by
  induction rs with
  | nil => exact ⟨[], rfl⟩
  | cons r rest ih =>
    rcases h r (List.mem_cons_self _ _) with ⟨l, hl⟩
    subst hl
    rcases ih (fun r hr => h r (List.mem_cons_of_mem _ hr)) with ⟨ls, hls⟩
    exact ⟨l :: ls, by simp [collectResults, hls]⟩

/-- C5 counterexample: a parse failure that escapes a provider's `get` is
not isolated by `Catalog.query`.  With a healthy crusoe source and a
hyperstack source whose pricing page has the table but no `tbody` —
so `price_table.find('tbody').find_all('tr')` raises an `AttributeError`
that `HyperstackProvider.get`'s `except requests.RequestException` does
not catch — the query dispatches both source tasks and then raises (the
stored exception is re-raised by `f.result()`), instead of returning the
healthy source's offers. -/
theorem c5_counterexample :
    (query c5hsState wEnv c5hsArgs).result =
      .error (.sourceTask (.providerRaised .attributeError)) ∧
    (query c5hsState wEnv c5hsArgs).dispatched =
      [SourceTask.online "crusoe", SourceTask.online "hyperstack"] :=
  ⟨rfl, rfl⟩

/-- C5 amended: a source fetch failure is isolated exactly when the
provider's own `get` absorbs it.  Every live provider returns `[]` on a
raised `requests.RequestException`, and crusoe additionally returns `[]`
on any exception raised while parsing, so such a failing source
contributes zero offers; and any query all of whose dispatched tasks
succeed returns the merged lists without raising.  But a parse error that
escapes a provider's `get` — hyperstack's `AttributeError` on a
`tbody`-less pricing page — becomes a failed task, and one failed task
makes the whole `Catalog.query` call raise. -/
theorem c5_failure_isolation_amended :
    ((∀ (e : ReqErr) (parsed : Except PyExn (List RawCatalogItem)),
        crusoeGet (.error e) parsed = .ok []) ∧
      (∀ (u : Unit) (e : PyExn), crusoeGet (.ok u) (.error e) = .ok []) ∧
      (∀ e : ReqErr, coreweaveGet (.error e) = []) ∧
      (∀ e : ReqErr, hyperstackGet (.error e) = .ok [])) ∧
    ((∀ (env : QueryEnv) (qf₀ : QueryFilter) (e : ReqErr)
        (parsed : Except PyExn (List RawCatalogItem))
        (cwRaws hsRaws : List RawCatalogItem),
      qf₀.provider = some ["coreweave", "crusoe", "hyperstack"] →
      validBounds qf₀ = true →
      (query (c5State e parsed cwRaws hsRaws) env qf₀).result =
        .ok (heapqMerge priceKey
          [matchedItems "coreweave" cwRaws qf₀, [],
           matchedItems "hyperstack" hsRaws qf₀])) ∧
    (∀ (st : CatalogState) (env : QueryEnv) (qf₀ qf : QueryFilter)
        (provList : List String),
      mkQueryFilter qf₀ = .ok qf →
      resolveProviders (reloadBlock st env).1 qf = .ok provList →
      (∀ r ∈ taskResults (reloadBlock st env).1
          { qf with provider := some provList } provList, ∃ l, r = .ok l) →
      ∃ items, (query st env qf₀).result = .ok items)) ∧
    ((hyperstackGet (.ok .tableWithoutTbody) = .error .attributeError) ∧
    (∀ (st : CatalogState) (env : QueryEnv) (qf₀ qf : QueryFilter)
        (provList : List String) (e : TaskErr),
      mkQueryFilter qf₀ = .ok qf →
      resolveProviders (reloadBlock st env).1 qf = .ok provList →
      (Except.error e : Except TaskErr (List CatalogItem)) ∈
        taskResults (reloadBlock st env).1
          { qf with provider := some provList } provList →
      ∃ e2, (query st env qf₀).result = .error (.sourceTask e2))) := by
  refine ⟨⟨fun e parsed => rfl, fun u e => rfl, fun e => rfl, fun e => rfl⟩,
    ⟨?_, ?_⟩, ⟨rfl, ?_⟩⟩
  · intro env qf₀ e parsed cwRaws hsRaws hprov hv
    have hqf1 : ({ qf₀ with provider := some ["coreweave", "crusoe", "hyperstack"] } : QueryFilter) = qf₀ := by
      rw [← hprov]
    have hmk : mkQueryFilter qf₀ = .ok qf₀ := by simp [mkQueryFilter, hv]
    have hrb : reloadBlock (c5State e parsed cwRaws hsRaws) env =
        (c5State e parsed cwRaws hsRaws, false) := rfl
    have hres : resolveProviders (c5State e parsed cwRaws hsRaws) qf₀ =
        .ok ["coreweave", "crusoe", "hyperstack"] := by
      simp only [resolveProviders, hprov]
      rfl
    have hbal : (c5State e parsed cwRaws hsRaws).balanceResources = true := rfl
    have hcw : getOnlineProviderItems (c5State e parsed cwRaws hsRaws).providers
        "coreweave" qf₀ true = .ok (matchedItems "coreweave" cwRaws qf₀) := by
      simp [getOnlineProviderItems, onlineItemsLoop, c5State]
    have hcr : getOnlineProviderItems (c5State e parsed cwRaws hsRaws).providers
        "crusoe" qf₀ true = .ok [] := by
      simp [getOnlineProviderItems, onlineItemsLoop, c5State, crusoeGet, matchedItems]
    have hhs : getOnlineProviderItems (c5State e parsed cwRaws hsRaws).providers
        "hyperstack" qf₀ true = .ok (matchedItems "hyperstack" hsRaws qf₀) := by
      simp [getOnlineProviderItems, onlineItemsLoop, c5State]
    have hon : onlineNames ["coreweave", "crusoe", "hyperstack"] =
        ["coreweave", "crusoe", "hyperstack"] := rfl
    have hoffn : offlineNames (c5State e parsed cwRaws hsRaws)
        ["coreweave", "crusoe", "hyperstack"] = [] := rfl
    have htr : taskResults (c5State e parsed cwRaws hsRaws) qf₀
        ["coreweave", "crusoe", "hyperstack"] =
        [.ok (matchedItems "coreweave" cwRaws qf₀), .ok [],
         .ok (matchedItems "hyperstack" hsRaws qf₀)] := by
      simp only [taskResults, hon, hoffn, List.map_cons, List.map_nil, hbal,
        hcw, hcr, hhs, List.append_nil]
    simp only [query, hmk, hrb, hres, hqf1, htr, collectResults, hbal, hcw, hcr, hhs]
  · intro st env qf₀ qf provList hmk hres hall
    rcases collectResults_ok_of_forall _ hall with ⟨ls, hcol⟩
    exact ⟨heapqMerge priceKey ls, by simp [query, hmk, hres, hcol]⟩
  · intro st env qf₀ qf provList e hmk hres hmem
    cases hcol : collectResults (taskResults (reloadBlock st env).1
        { qf with provider := some provList } provList) with
    | error e2 => exact ⟨e2, by simp [query, hmk, hres, hcol]⟩
    | ok lists =>
      exfalso
      rcases collectResults_ok_forall _ _ hcol _ hmem with ⟨l, hl⟩
      cases hl

theorem c5_witness :
    ∃ items, (query (c5State .timeout (.ok []) [plainRaw "c" 3] [plainRaw "h" 2])
        wEnv c5wArgs).result = .ok items := by
  refine c5_failure_isolation_amended.2.1.2
    (c5State .timeout (.ok []) [plainRaw "c" 3] [plainRaw "h" 2]) wEnv
    c5wArgs c5wArgs ["coreweave", "crusoe", "hyperstack"] rfl rfl ?_
  intro r hr
  have heval : taskResults (reloadBlock (c5State .timeout (.ok [])
      [plainRaw "c" 3] [plainRaw "h" 2]) wEnv).1
      { c5wArgs with provider := some ["coreweave", "crusoe", "hyperstack"] }
      ["coreweave", "crusoe", "hyperstack"] =
      [.ok [CatalogItem.ofRaw "coreweave" (plainRaw "c" 3)], .ok [],
       .ok [CatalogItem.ofRaw "hyperstack" (plainRaw "h" 2)]] := by decide
  rw [heval] at hr
  rcases List.mem_cons.mp hr with h | hr
  · exact ⟨_, h⟩
  rcases List.mem_cons.mp hr with h | hr
  · exact ⟨_, h⟩
  rcases List.mem_cons.mp hr with h | hr
  · exact ⟨_, h⟩
  cases hr

/-- C10: `CrusoeProvider.get` is total at its boundary: a raised
`requests.RequestException` and any exception raised while parsing both
produce a returned list (the empty one); on success it returns the built
offers sorted by price.  No input makes the call itself raise. -/
theorem c10_crusoe_get_total :
    (∀ (fetched : Except ReqErr Unit) (parsed : Except PyExn (List RawCatalogItem)),
      ∃ l, crusoeGet fetched parsed = .ok l) ∧
    (∀ (e : ReqErr) (parsed : Except PyExn (List RawCatalogItem)),
      crusoeGet (.error e) parsed = .ok []) ∧
    (∀ (u : Unit) (e : PyExn), crusoeGet (.ok u) (.error e) = .ok []) ∧
    (∀ (u : Unit) (offers : List RawCatalogItem),
      crusoeGet (.ok u) (.ok offers) =
        .ok (pySorted (fun x => x.price) offers)) := by
  refine ⟨?_, fun e parsed => rfl, fun u e => rfl, fun u offers => rfl⟩
  intro fetched parsed
  cases fetched with
  | error e => exact ⟨[], rfl⟩
  | ok u =>
    cases parsed with
    | error e => exact ⟨[], rfl⟩
    | ok offers => exact ⟨pySorted (fun x => x.price) offers, rfl⟩

/-- C9 counterexample: `CoreWeaveProvider` and `HyperstackProvider` return
offers in page-row order with no sort, so a pricing page that lists a
higher-priced GPU row before a lower-priced one makes their `get` return
a sequence that is not sorted ascending by price — the claimed invariant
fails for these live sources. -/
theorem c9_counterexample :
    ¬ (coreweaveGet (.ok (some [c9CwRowHigh, c9CwRowLow]))).Pairwise
        (keyLE (fun x : RawCatalogItem => x.price)) ∧
    hyperstackGet (.ok (.tbody [c9HsRowHigh, c9HsRowLow])) =
      .ok ([c9HsRowHigh, c9HsRowLow].filterMap hsParseRow) ∧
    ¬ ([c9HsRowHigh, c9HsRowLow].filterMap hsParseRow).Pairwise
        (keyLE (fun x : RawCatalogItem => x.price)) :=
  ⟨by decide, rfl, by decide⟩

/-- C9 amended: only `CrusoeProvider.get` guarantees output sorted
ascending by price (it sorts before returning and returns `[]` on both
error paths); `CoreWeaveProvider.get` and `HyperstackProvider.get` emit
offers in page-row order, so their output is sorted precisely when the
offers surviving row parsing already appear on the page in ascending
price order. -/
theorem c9_sorted_amended :
    (∀ (fetched : Except ReqErr Unit) (parsed : Except PyExn (List RawCatalogItem))
        (l : List RawCatalogItem),
      crusoeGet fetched parsed = .ok l →
      l.Pairwise (keyLE (fun x : RawCatalogItem => x.price))) ∧
    (∀ rows : List CwRow,
      rows.Pairwise (fun r r' => ∀ a ∈ cwParseRow r, ∀ b ∈ cwParseRow r',
        a.price ≤ b.price) →
      (coreweaveGet (.ok (some rows))).Pairwise
        (keyLE (fun x : RawCatalogItem => x.price))) ∧
    (∀ rows : List HsRow,
      rows.Pairwise (fun r r' => ∀ a ∈ hsParseRow r, ∀ b ∈ hsParseRow r',
        a.price ≤ b.price) →
      ∀ l, hyperstackGet (.ok (.tbody rows)) = .ok l →
      l.Pairwise (keyLE (fun x : RawCatalogItem => x.price))) := by
  refine ⟨?_, ?_, ?_⟩
  · intro fetched parsed l hl
    cases fetched with
    | error e =>
      simp only [crusoeGet, Except.ok.injEq] at hl
      subst hl
      exact List.Pairwise.nil
    | ok u =>
      cases parsed with
      | error e =>
        simp only [crusoeGet, Except.ok.injEq] at hl
        subst hl
        exact List.Pairwise.nil
      | ok offers =>
        simp only [crusoeGet, Except.ok.injEq] at hl
        subst hl
        exact pySorted_sorted _ offers
  · intro rows h
    show (rows.filterMap cwParseRow).Pairwise (keyLE (fun x => x.price))
    exact List.pairwise_filterMap.mpr h
  · intro rows h l hl
    simp only [hyperstackGet, hyperstackParseGpuOfferings, Except.ok.injEq] at hl
    subst hl
    exact List.pairwise_filterMap.mpr h

theorem c9_witness :
    ([] : List RawCatalogItem).Pairwise
      (keyLE (fun x : RawCatalogItem => x.price)) ∧
    (coreweaveGet (.ok (some [c9CwRowLow]))).Pairwise
      (keyLE (fun x : RawCatalogItem => x.price)) ∧
    ([c9HsRowLow].filterMap hsParseRow).Pairwise
      (keyLE (fun x : RawCatalogItem => x.price)) :=
  ⟨c9_sorted_amended.1 (.error .timeout) (.ok []) [] rfl,
   c9_sorted_amended.2.1 [c9CwRowLow] (List.pairwise_singleton _ _),
   c9_sorted_amended.2.2 [c9HsRowLow] (List.pairwise_singleton _ _) _ rfl⟩
